import Mathlib

/-!
Verification of the moderation bot in `src/mod_bot.py`.

The development embeds the detection engine and the message handler as pure
Lean functions and proves the stated properties of the detector
(`detect_word_threshold`, lines 57-88) and of the handler
(`ModerationBot.on_message`, lines 115-137).
-/

/-- Splits a character stream on whitespace into maximal non-empty runs of
non-whitespace characters; `acc` holds the characters of the token currently
being read, in reverse order. -/
def splitWhitespaceAux : List Char → List Char → List String
  | [], acc => if acc.isEmpty then [] else [String.mk acc.reverse]
  | c :: cs, acc =>
    if c.isWhitespace then
      (if acc.isEmpty then [] else [String.mk acc.reverse]) ++ splitWhitespaceAux cs []
    else
      splitWhitespaceAux cs (c :: acc)

/-- Models `nltk.tokenize.word_tokenize` as used on line 75.  On text without
punctuation (the texts of the properties below), Punkt word tokenization
coincides with splitting on whitespace. -/
def wordTokenize (text : String) : List String :=
  splitWhitespaceAux text.data []

/-- Models Python `str.lower`, the per-character case folding applied on line
75; on the ASCII and fullwidth texts considered here it agrees with
`Char.toLower` applied character-wise. -/
def lowerString (s : String) : String :=
  String.mk (s.data.map Char.toLower)

/-- Line 75: `words_in_text = [word.lower() for word in word_tokenize(text)]`. -/
def wordsInText (text : String) : List String :=
  (wordTokenize text).map lowerString

/-- Lines 78-83: the count accumulated for a catalog entry.  The count starts
at 0; only when the trigger `word` is itself an element of the token list are
the occurrences of the trigger and of each pair word added (Python `in` and
`list.count` both use exact string equality). -/
def entryCount (tokens : List String) (word : String) (pairs : List String) : Nat :=
  if word ∈ tokens then
    tokens.count word + (pairs.map (fun pair => tokens.count pair)).sum
  else 0

/-- Lines 77-88: iterate the catalog entries in stored order and return the
first whose count meets or exceeds the threshold, as `[word, count]`
(modelled `some (word, count)`), or `None` (`none`) when no entry does. -/
def detectTokens (tokens : List String) (wordPairs : List (String × List String))
    (threshold : Int) : Option (String × Nat) :=
  match wordPairs with
  | [] => none
  | (word, pairs) :: rest =>
    if (entryCount tokens word pairs : Int) ≥ threshold then
      some (word, entryCount tokens word pairs)
    else
      detectTokens tokens rest threshold

/-- `detect_word_threshold` (lines 57-88).  The Python `word_pairs` dict is
modelled as an association list in insertion order (Python dicts preserve it);
the returned list `[word, count]` or `None` is modelled as an `Option`. -/
def detect_word_threshold (text : String) (word_pairs : List (String × List String))
    (threshold : Int) : Option (String × Nat) :=
  detectTokens (wordsInText text) word_pairs threshold

/-- Python `str.translate` (line 130) with a table keyed by code point and
mapping single characters to single characters: every character present as a
key is replaced by its image, all others pass through unchanged. -/
def pyTranslate (table : Char → Option Char) (s : String) : String :=
  String.mk (s.data.map (fun c => (table c).getD c))

/-- The fields of an incoming Discord message that `on_message` reads. -/
structure MsgEvent where
  authorIsBot : Bool
  channelIsText : Bool
  channelName : String
  authorName : String
  content : String
deriving DecidableEq

/-- The externally observable effect of one `on_message` call: whether the
detector ran, whether the message was deleted, and the count written to the
log line (line 137) when it was. -/
structure OnMessageEffect where
  detectorInvoked : Bool
  deleted : Bool
  loggedCount : Option Nat
deriving DecidableEq

/-- `ModerationBot.on_message` (lines 115-137).  Note the code on line 130
binds a translated copy of the message content, but line 132 passes the raw
`message.content` to the detector, so the translated copy is never read. -/
def onMessage (allowedChannels : List String)
    (restrictedPairs : List (String × List String))
    (translationTable : Char → Option Char) (msg : MsgEvent) : OnMessageEffect :=
  if msg.authorIsBot ∨ ¬ msg.channelIsText then
    ⟨false, false, none⟩
  else if msg.channelName ∉ allowedChannels then
    ⟨false, false, none⟩
  else
    let _content := pyTranslate translationTable msg.content
    match detect_word_threshold msg.content restrictedPairs 2 with
    | some (_, count) => ⟨true, true, some count⟩
    | none => ⟨true, false, none⟩

/-- The fullwidth-to-ASCII translation table of the translation-correctness
example: each fullwidth letter of "ｓｐａｍ" maps to its ASCII counterpart. -/
def fullwidthTable : Char → Option Char := fun c =>
  if c = 'ｓ' then some 's'
  else if c = 'ｐ' then some 'p'
  else if c = 'ａ' then some 'a'
  else if c = 'ｍ' then some 'm'
  else none

/-- Catalog with the single trigger "spam" and no pair words. -/
def spamCatalog : List (String × List String) := [("spam", [])]

/-- The translation-correctness example message: fullwidth "spam" followed by
ASCII "spam", posted in an allowed text channel by a non-bot author. -/
def fwSpamMsg : MsgEvent :=
  ⟨false, true, "general", "someone", "ｓｐａｍ spam"⟩

lemma entryCount_of_not_mem {tokens : List String} {word : String}
    {pairs : List String} (h : word ∉ tokens) : entryCount tokens word pairs = 0 := by
  simp [entryCount, h]

lemma detectTokens_eq_find (tokens : List String) (threshold : Int)
    (wordPairs : List (String × List String)) :
    detectTokens tokens wordPairs threshold =
      (wordPairs.find? (fun e => decide ((entryCount tokens e.1 e.2 : Int) ≥ threshold))).map
        (fun e => (e.1, entryCount tokens e.1 e.2)) := by
  induction wordPairs with
  | nil => rfl
  | cons e rest ih =>
    obtain ⟨w, p⟩ := e
    by_cases h : (entryCount tokens w p : Int) ≥ threshold
    · simp [detectTokens, List.find?, h]
    · simp [detectTokens, List.find?, h, ih]

lemma detectTokens_some {tokens : List String} {wordPairs : List (String × List String)}
    {threshold : Int} {w : String} {c : Nat}
    (h : detectTokens tokens wordPairs threshold = some (w, c)) :
    ∃ p, (w, p) ∈ wordPairs ∧ c = entryCount tokens w p ∧ (c : Int) ≥ threshold := by
  rw [detectTokens_eq_find] at h
  obtain ⟨e, hfind, hmap⟩ := Option.map_eq_some'.mp h
  obtain ⟨w', p⟩ := e
  simp only [Prod.mk.injEq] at hmap
  obtain ⟨rfl, rfl⟩ := hmap
  have hq := List.find?_some hfind
  simp only [decide_eq_true_eq] at hq
  exact ⟨p, List.mem_of_find?_eq_some hfind, rfl, hq⟩

lemma detectTokens_some_mem_of_pos {tokens : List String}
    {wordPairs : List (String × List String)} {threshold : Int} {w : String} {c : Nat}
    (hth : 1 ≤ threshold)
    (h : detectTokens tokens wordPairs threshold = some (w, c)) : w ∈ tokens := by
  obtain ⟨p, _, hc, hge⟩ := detectTokens_some h
  by_contra hw
  rw [hc, entryCount_of_not_mem hw] at hge
  simp at hge
  omega

lemma pairs_eq_of_keys_nodup {l : List (String × List String)}
    (hnd : (l.map Prod.fst).Nodup) {w : String} {p p' : List String}
    (h1 : (w, p) ∈ l) (h2 : (w, p') ∈ l) : p = p' := by
  induction l with
  | nil => cases h1
  | cons e rest ih =>
    rw [List.map_cons, List.nodup_cons] at hnd
    cases h1 with
    | head =>
      cases h2 with
      | head => rfl
      | tail _ h2' =>
        exact absurd (List.mem_map_of_mem Prod.fst h2') (by simpa using hnd.1)
    | tail _ h1' =>
      cases h2 with
      | head =>
        exact absurd (List.mem_map_of_mem Prod.fst h1') (by simpa using hnd.1)
      | tail _ h2' => exact ih hnd.2 h1' h2'

/-- C1: the property that the unicode translation is applied before token
counting fails on the code.  On the message "ｓｐａｍ spam" in an allowed
channel with trigger "spam", empty pairs and threshold 2, the handler computes
a translated copy (line 130) but passes the raw content to the detector
(line 132), so the detector sees only one occurrence of "spam": no detection
and no deletion happen, while the detector applied to the translated content
returns ("spam", 2) as the property requires. -/
theorem translation_discarded_before_detection :
    (onMessage ["general"] spamCatalog fullwidthTable fwSpamMsg).deleted = false ∧
      (onMessage ["general"] spamCatalog fullwidthTable fwSpamMsg).loggedCount = none ∧
      detect_word_threshold fwSpamMsg.content spamCatalog 2 = none ∧
      detect_word_threshold (pyTranslate fullwidthTable fwSpamMsg.content) spamCatalog 2 =
        some ("spam", 2) := by
  decide

/-- C2: for every token sequence, catalog and threshold, the detector returns
exactly the image of the first catalog entry, in stored order, whose combined
count meets or exceeds the threshold (`List.find?` returns the first element
satisfying the predicate), and `none` when no entry qualifies.  In
particular, an entry listed after a qualifying entry is never returned. -/
theorem detect_first_in_catalog_order (tokens : List String)
    (wordPairs : List (String × List String)) (threshold : Int) :
    detectTokens tokens wordPairs threshold =
      (wordPairs.find? (fun e => decide ((entryCount tokens e.1 e.2 : Int) ≥ threshold))).map
        (fun e => (e.1, entryCount tokens e.1 e.2)) :=
  detectTokens_eq_find tokens threshold wordPairs

/-- C3: for a catalog entry `(w, p)` whose trigger `w` occurs in the token
sequence, the count computed for the entry is the number of exact-equality
occurrences of `w` plus the sum over the pair words of their exact-equality
occurrences (`List.count` counts whole-token equality, never substring
containment), and when the detector returns that entry the returned count is
exactly this sum. -/
theorem detect_count_formula (tokens : List String)
    (wordPairs : List (String × List String)) (threshold : Int)
    (w : String) (p : List String) (c : Nat) (hw : w ∈ tokens)
    (hnd : (wordPairs.map Prod.fst).Nodup) (hmem : (w, p) ∈ wordPairs)
    (hdet : detectTokens tokens wordPairs threshold = some (w, c)) :
    entryCount tokens w p = tokens.count w + (p.map (fun q => tokens.count q)).sum ∧
      c = tokens.count w + (p.map (fun q => tokens.count q)).sum := by
  have hformula : entryCount tokens w p
      = tokens.count w + (p.map (fun q => tokens.count q)).sum := by
    simp [entryCount, hw]
  refine ⟨hformula, ?_⟩
  obtain ⟨p', hmem', hc, _⟩ := detectTokens_some hdet
  rw [pairs_eq_of_keys_nodup hnd hmem' hmem] at hc
  rw [hc]
  exact hformula

theorem detect_count_formula_witness :
    entryCount ["buy", "now", "buy"] "buy" ["now"] =
        (["buy", "now", "buy"] : List String).count "buy" +
          ((["now"] : List String).map
            (fun q => (["buy", "now", "buy"] : List String).count q)).sum ∧
      3 = (["buy", "now", "buy"] : List String).count "buy" +
          ((["now"] : List String).map
            (fun q => (["buy", "now", "buy"] : List String).count q)).sum :=
  detect_count_formula ["buy", "now", "buy"] [("buy", ["now"])] 2 "buy" ["now"] 3
    (by decide) (by decide) (by decide) (by decide)

/-- C4: a first-entry count exactly equal to the threshold qualifies and is
returned; a count of threshold minus one does not qualify and scanning moves
on; concretely, with trigger "buy", pairs ["now"] and threshold 2, the text
"buy" yields no detection while "buy now" yields ("buy", 2). -/
theorem threshold_boundary (tokens : List String) (w : String) (p : List String)
    (rest : List (String × List String)) (threshold : Int) :
    ((entryCount tokens w p : Int) = threshold →
        detectTokens tokens ((w, p) :: rest) threshold = some (w, entryCount tokens w p)) ∧
      ((entryCount tokens w p : Int) = threshold - 1 →
        detectTokens tokens ((w, p) :: rest) threshold = detectTokens tokens rest threshold) ∧
      detect_word_threshold "buy" [("buy", ["now"])] 2 = none ∧
      detect_word_threshold "buy now" [("buy", ["now"])] 2 = some ("buy", 2) := by
  refine ⟨fun h => ?_, fun h => ?_, by decide, by decide⟩
  · simp only [detectTokens]
    rw [if_pos (le_of_eq h.symm)]
  · simp only [detectTokens]
    rw [if_neg (by omega)]

theorem threshold_boundary_witness :
    detectTokens ["buy", "now"] [("buy", ["now"])] 2 =
      some ("buy", entryCount ["buy", "now"] "buy" ["now"]) :=
  (threshold_boundary ["buy", "now"] "buy" ["now"] [] 2).1 (by decide)

/-- C5, counterexample to the property as stated for every threshold value:
with threshold 0, the empty token sequence and the single entry ("x", []), the
detector returns ("x", 0) although the trigger "x" does not occur at all. -/
theorem pair_only_trigger_counterexample :
    detectTokens [] [("x", [])] 0 = some ("x", 0) ∧ "x" ∉ ([] : List String) := by
  decide

/-- C5, amended to positive thresholds: for every threshold at least 1, a
trigger that does not occur in the token sequence is never the returned
trigger, since its accumulated count is 0. -/
theorem trigger_must_appear (tokens : List String)
    (wordPairs : List (String × List String)) (threshold : Int) (w : String) (c : Nat)
    (hth : 1 ≤ threshold)
    (h : detectTokens tokens wordPairs threshold = some (w, c)) : w ∈ tokens :=
  detectTokens_some_mem_of_pos hth h

theorem trigger_must_appear_witness : "spam" ∈ (["spam", "spam"] : List String) :=
  trigger_must_appear ["spam", "spam"] [("spam", [])] 2 "spam" 2 (by decide) (by decide)

/-- C6: with the threshold at its configured value 2, if no trigger of the
catalog occurs in the token sequence, the detector returns `none`. -/
theorem no_trigger_returns_none (tokens : List String)
    (wordPairs : List (String × List String))
    (h : ∀ e ∈ wordPairs, e.1 ∉ tokens) :
    detectTokens tokens wordPairs 2 = none := by
  induction wordPairs with
  | nil => rfl
  | cons e rest ih =>
    obtain ⟨w, p⟩ := e
    have hw : w ∉ tokens := h (w, p) (List.mem_cons_self _ _)
    have h0 : entryCount tokens w p = 0 := entryCount_of_not_mem hw
    simp only [detectTokens, h0]
    rw [if_neg (by omega)]
    exact ih fun e he => h e (List.mem_cons_of_mem _ he)

theorem no_trigger_returns_none_witness :
    detectTokens ["hello", "there"] [("spam", ["work"])] 2 = none :=
  no_trigger_returns_none ["hello", "there"] [("spam", ["work"])] (by decide)

/-- C7: the detector is a pure function of its three arguments; two
invocations with identical text, catalog and threshold return identical
results, with no state carried between calls. -/
theorem detect_word_threshold_deterministic (text : String)
    (word_pairs : List (String × List String)) (threshold : Int) :
    detect_word_threshold text word_pairs threshold =
      detect_word_threshold text word_pairs threshold := rfl

/-- C8: a message whose channel is not in the allow-list never reaches the
detector and never produces a deletion, regardless of its content. -/
theorem channel_not_allowed_no_action (allowedChannels : List String)
    (restrictedPairs : List (String × List String))
    (translationTable : Char → Option Char) (msg : MsgEvent)
    (h : msg.channelName ∉ allowedChannels) :
    (onMessage allowedChannels restrictedPairs translationTable msg).detectorInvoked = false ∧
      (onMessage allowedChannels restrictedPairs translationTable msg).deleted = false := by
  unfold onMessage
  split
  · exact ⟨rfl, rfl⟩
  · simp [h]

theorem channel_not_allowed_no_action_witness :
    (onMessage ["general"] spamCatalog fullwidthTable
        ⟨false, true, "random", "someone", "spam spam"⟩).detectorInvoked = false ∧
      (onMessage ["general"] spamCatalog fullwidthTable
        ⟨false, true, "random", "someone", "spam spam"⟩).deleted = false :=
  channel_not_allowed_no_action ["general"] spamCatalog fullwidthTable
    ⟨false, true, "random", "someone", "spam spam"⟩ (by decide)

/-- C9: with a threshold at most 0 the guard `count >= threshold` holds for
the very first entry even when its count is 0, so the detector returns the
first trigger with count 0 although neither the trigger nor any of its pair
words occurs in the token sequence. -/
theorem nonpositive_threshold_first_entry (tokens : List String) (w : String)
    (p : List String) (rest : List (String × List String)) (threshold : Int)
    (hth : threshold ≤ 0) (hw : w ∉ tokens) (_hp : ∀ q ∈ p, q ∉ tokens) :
    detectTokens tokens ((w, p) :: rest) threshold = some (w, 0) := by
  have h0 : entryCount tokens w p = 0 := entryCount_of_not_mem hw
  simp only [detectTokens, h0]
  rw [if_pos (by omega)]

theorem nonpositive_threshold_first_entry_witness :
    detectTokens ["hello"] [("x", ["y"]), ("z", [])] (-1) = some ("x", 0) :=
  nonpositive_threshold_first_entry ["hello"] "x" ["y"] [("z", [])] (-1)
    (by decide) (by decide) (by decide)

/-- C10: whenever the detector returns `some (w, c)`, the trigger `w` is a key
of the supplied catalog, the count `c` meets or exceeds the threshold, and for
a threshold of at least 1 the trigger occurs in the lowercased token sequence
of the text. -/
theorem detect_word_threshold_sound (text : String)
    (word_pairs : List (String × List String)) (threshold : Int) (w : String) (c : Nat)
    (h : detect_word_threshold text word_pairs threshold = some (w, c)) :
    w ∈ word_pairs.map Prod.fst ∧ (c : Int) ≥ threshold ∧
      (1 ≤ threshold → w ∈ wordsInText text) := by
  have h' : detectTokens (wordsInText text) word_pairs threshold = some (w, c) := h
  obtain ⟨p, hmem, hc, hge⟩ := detectTokens_some h'
  exact ⟨List.mem_map_of_mem Prod.fst hmem, hge,
    fun hth => detectTokens_some_mem_of_pos hth h'⟩

theorem detect_word_threshold_sound_witness :
    "spam" ∈ ([("spam", [])] : List (String × List String)).map Prod.fst ∧
      ((2 : Nat) : Int) ≥ (2 : Int) ∧
      ((1 : Int) ≤ 2 → "spam" ∈ wordsInText "spam spam") :=
  detect_word_threshold_sound "spam spam" [("spam", [])] 2 "spam" 2 (by decide)
